import Mathlib

/-!
Verification of the UCI host-side client library (`new_python_script/uci/`).

Shallow embedding of the Python sources into Lean:
* Python `bytes` values are `List Nat` (each element intended `< 256`).
* Python exceptions are the explicit error type `PyErr` in `Except`.
* Python `int`/`float` values are `ℤ`/`ℚ`; the floats handled by the
  fixed-point code are always of the form `k / 2^n`, on which every
  operation the source performs (comparison, scaling by a power of two,
  rounding) is exact in `ℚ` exactly as it is in IEEE-754 doubles.
* Unbounded `while` loops are embedded with an explicit fuel argument that
  is always sufficient (each iteration strictly consumes input), keeping
  every definition computable by kernel reduction.
-/

namespace Uci

/-- Python exceptions raised by the modelled code paths.  `uciCom s` models
`UciComError(s, msg)` from `uci/utils.py`. -/
inductive UciComStatus
  | Ok | UnknownPort | UnknownProtocol | TimeoutError | ProtocolError | Error
  deriving DecidableEq, Repr

inductive PyErr
  | valueError
  | overflowError
  | attributeError
  | indexError
  | zeroDivisionError
  | typeError
  | uciCom (s : UciComStatus)
  deriving DecidableEq, Repr

/-! ## Little-endian byte conversions (Python `int.to_bytes` / `int.from_bytes`) -/

/-- `natToBytesLE L n` is the little-endian byte encoding of `n` on `L` bytes
(the value written by `n.to_bytes(L, "little")` when `n < 2^(8L)`). -/
def natToBytesLE : Nat → Nat → List Nat
  | 0, _ => []
  | L + 1, n => (n % 256) :: natToBytesLE L (n / 256)

/-- `int.from_bytes(bs, "little", signed=False)`. -/
def bytesToNatLE (bs : List Nat) : Nat :=
  bs.foldr (fun b acc => b + 256 * acc) 0

/-- `int.from_bytes(bs, "little", signed=signed)`. -/
def bytesToIntLE (signed : Bool) (bs : List Nat) : ℤ :=
  let n := bytesToNatLE bs
  if signed ∧ 2 ^ (8 * bs.length - 1) ≤ n then (n : ℤ) - 2 ^ (8 * bs.length) else (n : ℤ)

/-- `v.to_bytes(L, "little", signed=signed)`: `none` models `OverflowError`. -/
def intToBytesLE (L : Nat) (signed : Bool) (v : ℤ) : Option (List Nat) :=
  if signed then
    if -(2 ^ (8 * L - 1)) ≤ v ∧ v < 2 ^ (8 * L - 1) then
      some (natToBytesLE L (v % 2 ^ (8 * L)).toNat)
    else none
  else
    if 0 ≤ v ∧ v < 2 ^ (8 * L) then some (natToBytesLE L v.toNat) else none

/-! ## `uci/core.py`: packet framing (`Client.send_packet`, `Client.send_message`) -/

/-- `Client.send_packet` (`core.py:191-197`): the emitted packet is
`header + payload` with `header = [mt << 5 | pbf << 4 | gid, oid, 0, len(payload)]`. -/
def send_packet (mt gid oid pbf : Nat) (payload : List Nat) : List Nat :=
  (((mt <<< 5) ||| (pbf <<< 4)) ||| gid) :: oid :: 0 :: payload.length :: payload

/-- The `while True` fragmentation loop of `Client.send_message`
(`core.py:251-263`), with fuel.  Each entry is `(pbf, chunk)`; a chunk of 250
bytes with `pbf = 1` is cut while more than 250 bytes remain, and the final
iteration emits the remainder with `pbf = 0`.  Fuel `payload.length` is always
sufficient because every non-final iteration consumes 250 bytes. -/
def fragmentsAux : Nat → List Nat → List (Nat × List Nat)
  | 0, payload => [(0, payload)]
  | fuel + 1, payload =>
    if 250 < payload.length then
      (1, payload.take 250) :: fragmentsAux fuel (payload.drop 250)
    else
      [(0, payload)]

def fragments (payload : List Nat) : List (Nat × List Nat) :=
  fragmentsAux payload.length payload

/-- `Client.send_message` (`core.py:240-263`).  `mt.bit_length() > 3` is the
condition `2^3 ≤ mt` (similarly for `gid`, `oid`); a violation raises
`UciComError(ProtocolError, ...)`.  The result is the list of packets written
to the transport, in order. -/
def send_message (mt gid oid : Nat) (payload : List Nat) :
    Except PyErr (List (List Nat)) :=
  if 2 ^ 3 ≤ mt then .error (.uciCom .ProtocolError)
  else if 2 ^ 4 ≤ gid then .error (.uciCom .ProtocolError)
  else if 2 ^ 6 ≤ oid then .error (.uciCom .ProtocolError)
  else .ok ((fragments payload).map fun pc => send_packet mt gid oid pc.1 pc.2)

/-- Header-bit accessors used by `Client.packet_received` (`core.py:221-224`). -/
def mtOfByte (b0 : Nat) : Nat := (b0 &&& 0xE0) >>> 5

def pbfOfByte (b0 : Nat) : Nat := (b0 &&& 0x10) >>> 4

def gidOfByte (b0 : Nat) : Nat := b0 &&& 0x0F

/-- PBF field of an emitted packet (bit 4 of its first byte). -/
def pbfOfPacket (pkt : List Nat) : Nat := pbfOfByte (pkt.headD 0)

/-! ## `uci/core.py`: `Client.command` (`core.py:310-325`)

The response queue `self.wq` is modelled as the list of response tuples that
arrive while the caller waits: `queue.get(timeout=...)` returning the head, an
empty list modelling the timeout (`queue.Empty`).  Real time is abstracted
away: "no response within the timeout" is exactly "the queue stays empty". -/

def command (wq : List (Nat × Nat × List Nat)) (gid oid : Nat) (payload : List Nat) :
    Except PyErr (List Nat) × List (Nat × Nat × List Nat) :=
  match send_message 1 gid oid payload with  -- MT.Command = 1
  | .error e => (.error e, wq)
  | .ok _ =>
    match wq with
    | [] => (.error (.uciCom .TimeoutError), [])
    | (rgid, roid, rpayload) :: rest =>
      if (rgid, roid) ≠ (gid, oid) then (.error (.uciCom .ProtocolError), rest)
      else (.ok rpayload, rest)

/-! ## `uci/core.py`: TLV codec (`tvs_to_bytes`, `tlvs_from_bytes`)

A parameter table entry maps a tag value to its declared length policy:
either a single fixed length or a two-element list `[a, b]` of alternative
lengths (`fira_app.py` declares only these two shapes). -/

inductive LenPolicy
  | fixed (n : Nat)
  | alt (a b : Nat)
  deriving DecidableEq, Repr

/-- `get_length` (`core.py:45-50`): first table entry whose tag matches;
`ValueError("BadType")` when none does. -/
def get_length (defs : List (Nat × LenPolicy)) (t : Nat) : Except PyErr LenPolicy :=
  match defs with
  | [] => .error .valueError
  | (value, length) :: rest => if value = t then .ok length else get_length rest t

/-- A Python value supplied to `tvs_to_bytes`: a plain `int`, a `bytes`
value, or a list of ints.  (A `dict` value subscripts the declared length
policy with `lengths[0]`/`lengths[1][i]`; for the two policy shapes that the
tables in scope declare this is an `int` subscript and raises `TypeError`,
which is how it is modelled.) -/
inductive TlvInput
  | int (v : ℤ)
  | bytes (bs : List Nat)
  | list (vs : List ℤ)
  | dict (vs : List ℤ)
  deriving DecidableEq, Repr

/-- `n.to_bytes(1, "little")`: a single byte, `OverflowError` when `n ≥ 256`. -/
def byte1 (n : Nat) : Except PyErr (List Nat) :=
  if n < 256 then .ok [n] else .error .overflowError

/-- `s.to_bytes(length, "little")` for a Python `int` `s` (unsigned):
`OverflowError` outside `[0, 2^(8·length))`. -/
def intByte (length : Nat) (s : ℤ) : Except PyErr (List Nat) :=
  match intToBytesLE length false s with
  | some bs => .ok bs
  | none => .error .overflowError

/-- One iteration of the `for t, v in tvs` loop of `tvs_to_bytes`
(`core.py:55-84`): the bytes appended to the payload for this item, or the
exception the iteration raises.  Note the order: the length byte is emitted
before the `BadLength` check, exactly as in the source. -/
def tvItem (defs : List (Nat × LenPolicy)) (t : Nat) (v : TlvInput) :
    Except PyErr (List Nat) := do
  let lengths ← get_length defs t
  let tb ← byte1 t
  match v with
  | .list vs =>
    let length := match lengths with | .fixed n => n | .alt a _ => a
    let lb ← byte1 (vs.length * length)
    let body ← vs.mapM (intByte length)
    pure (tb ++ lb ++ body.flatten)
  | .dict _ => .error .typeError
  | .bytes bs =>
    let length := match lengths with
      | .fixed n => n
      | .alt a b => if bs.length = 32 then b else a
    let lb ← byte1 length
    if bs.length ≠ length then .error .valueError  -- raise ValueError("BadLength")
    else pure (tb ++ lb ++ bs)
  | .int s =>
    match lengths with
    | .alt _ _ => .error .typeError  -- len(v) on an int
    | .fixed length => do
      let lb ← byte1 length
      match intToBytesLE length false s with
      | some bs => pure (tb ++ lb ++ bs)
      | none => .error .valueError
        -- except Exception: raise ValueError(f'Unable to set param ...')

/-- `tvs_to_bytes` (`core.py:53-86`). -/
def tvs_to_bytes (defs : List (Nat × LenPolicy)) (tvs : List (Nat × TlvInput)) :
    Except PyErr (List Nat) := do
  let c ← byte1 tvs.length
  let items ← tvs.mapM fun tv => tvItem defs tv.1 tv.2
  pure (c ++ items.flatten)

/-! ### Enum conversion (`utils.py:97-108`, `DefaultEnum._missing_`)

`enum_class(t)` returns the member with value `t`; for an undefined value,
`DefaultEnum._missing_` evaluates `cls(cls.Unknown)`.  When the class has an
`Unknown` member, that member is returned; when it does not (e.g. `App` and
`Config`), `cls.Unknown` raises `AttributeError`, which CPython's
`Enum.__new__` re-raises to the caller.  It never raises `ValueError`. -/

def enumConvert (memberValues : List ℤ) (unknownMember : Option ℤ) (v : ℤ) :
    Except PyErr ℤ :=
  if v ∈ memberValues then .ok v
  else
    match unknownMember with
    | some u => .ok u
    | none => .error .attributeError

/-- A decoded tag: an enum member, or the raw integer preserved by the
`except ValueError` fallback of `tlvs_from_bytes` (`core.py:124-125`). -/
inductive TagVal
  | member (v : ℤ)
  | raw (t : Nat)
  deriving DecidableEq, Repr

/-- A decoded TLV value: a scalar or a list of scalars. -/
inductive TlvDecoded
  | scalar (n : Nat)
  | list (ns : List Nat)
  deriving DecidableEq, Repr

/-- `payload[i]`: direct indexing, `IndexError` when out of range. -/
def pyIndex (payload : List Nat) (i : Nat) : Except PyErr Nat :=
  match payload.get? i with
  | some b => .ok b
  | none => .error .indexError

/-- The element slices `payload[p + i*l : p + (i+1)*l]` of the list branch of
`tlvs_from_bytes` (`core.py:111-116`), decoded little-endian. -/
def tlvListElems (tail : List Nat) (lElem nb : Nat) : List Nat :=
  (List.range nb).map fun i => bytesToNatLE ((tail.drop (i * lElem)).take lElem)

/-- The `for i in range(n)` loop of `tlvs_from_bytes` (`core.py:94-125`),
structurally recursive on the remaining iteration count.  `p` is the current
parse position. -/
def tlvsLoop (defs : List (Nat × LenPolicy)) (memberValues : List ℤ)
    (unknownMember : Option ℤ) (payload : List Nat) :
    Nat → Nat → Except PyErr (List (TagVal × Nat × TlvDecoded))
  | 0, _ => .ok []
  | i + 1, p => do
    let t ← pyIndex payload p
    let l ← pyIndex payload (p + 1)
    -- try: get_length(...); list policies fall back to the wire length;
    -- except (AttributeError, ValueError): l_elem = l
    let lElem := match get_length defs t with
      | .ok (.fixed n) => n
      | .ok (.alt _ _) => l
      | .error _ => l
    let tail := (payload.drop (p + 2)).take l  -- payload[p:p+l] after p += 2
    let v ← if lElem = l then
        .ok (TlvDecoded.scalar (bytesToNatLE tail))
      else if lElem = 0 then
        .error .zeroDivisionError  -- l % 0
      else if l % lElem = 0 then
        .ok (TlvDecoded.list (tlvListElems tail lElem (l / lElem)))
      else
        .error .valueError  -- raise ValueError("BadLength")
    let tv ← match enumConvert memberValues unknownMember (t : ℤ) with
      | .ok u => .ok (TagVal.member u)
      | .error .valueError => .ok (TagVal.raw t)  -- except ValueError (dead for DynIntEnum)
      | .error e => .error e
    let rest ← tlvsLoop defs memberValues unknownMember payload i (p + 2 + l)
    .ok ((tv, lElem, v) :: rest)

/-- `tlvs_from_bytes` (`core.py:89-127`). -/
def tlvs_from_bytes (defs : List (Nat × LenPolicy)) (memberValues : List ℤ)
    (unknownMember : Option ℤ) (payload : List Nat) :
    Except PyErr (List (TagVal × Nat × TlvDecoded)) := do
  let n ← pyIndex payload 0
  tlvsLoop defs memberValues unknownMember payload n 1

/-! ## `uci/fira_app.py`: the `App` parameter table

`App.values` lists the integer values of the `App` enum members
(`fira_app.py:13-96`); the class declares **no** `Unknown` member.
`App.defs` is the table assigned at `fira_app.py:98-178`, in source order. -/

namespace App

def values : List ℤ :=
  [0x00, 0x01, 0x02, 0x03, 0x04, 0x05, 0x06, 0x07, 0x08, 0x09, 0x0A, 0x0B,
   0x0C, 0x0D, 0x0E, 0x0F, 0x10, 0x11, 0x12, 0x13, 0x14, 0x15, 0x16, 0x17,
   0x18, 0x19, 0x1A, 0x1B, 0x1D, 0x1E, 0x1F, 0x20, 0x22, 0x23, 0x24, 0x25,
   0x26, 0x27, 0x28, 0x29, 0x2A, 0x2B, 0x2C, 0x2D, 0x2E, 0x2F, 0x30, 0x31,
   0x32, 0x33, 0x34, 0x35, 0x38, 0x39, 0x3A, 0x3B, 0x3C, 0x3E, 0x3F, 0x40,
   0x41, 0x42, 0x43, 0x44, 0x45, 0x46, 0x47, 0x49, 0x4D, 0xA0, 0xA1, 0xA3,
   0xA4, 0xA5, 0xA6, 0xA8, 0x3D, 0xA9, 0xAA]

def defs : List (Nat × LenPolicy) :=
  [(0x20, LenPolicy.fixed 2),   -- CapSizeRange
   (0x44, LenPolicy.fixed 1),   -- DlTdoaTimeReferenceAnchor
   (0x43, LenPolicy.fixed 1),   -- DlTdoaBlockStriding
   (0x42, LenPolicy.fixed 1),   -- DlTdoaTxActiveRangingRounds
   (0x41, LenPolicy.fixed 1),   -- DlTdoaAnchorLocation
   (0x40, LenPolicy.fixed 1),   -- DlTdoaAnchorCfo
   (0x3E, LenPolicy.fixed 1),   -- DlTdoaTxTimestampConf
   (0x3D, LenPolicy.fixed 1),   -- DlTdoaRangingMethod
   (0x00, LenPolicy.fixed 1),   -- DeviceType
   (0x01, LenPolicy.fixed 1),   -- RangingRoundUsage
   (0x02, LenPolicy.fixed 1),   -- StsConfig
   (0x03, LenPolicy.fixed 1),   -- MultiNodeMode
   (0x04, LenPolicy.fixed 1),   -- ChannelNumber
   (0x05, LenPolicy.fixed 1),   -- NumberOfControlees
   (0x06, LenPolicy.fixed 2),   -- DeviceMacAddress
   (0x07, LenPolicy.fixed 2),   -- DstMacAddress
   (0x08, LenPolicy.fixed 2),   -- SlotDuration
   (0x09, LenPolicy.fixed 4),   -- RangingInterval
   (0x0A, LenPolicy.fixed 4),   -- StsIndex
   (0x0B, LenPolicy.fixed 1),   -- MacFcsType
   (0x0C, LenPolicy.fixed 1),   -- RangingRoundControl
   (0x0D, LenPolicy.fixed 1),   -- AoaResultReq
   (0x0E, LenPolicy.fixed 1),   -- RangeDataNtfConfig
   (0x0F, LenPolicy.fixed 2),   -- RangeDataNtfProximityNear
   (0x10, LenPolicy.fixed 2),   -- RangeDataNtfProximityFar
   (0x11, LenPolicy.fixed 1),   -- DeviceRole
   (0x12, LenPolicy.fixed 1),   -- RframeConfig
   (0x14, LenPolicy.fixed 1),   -- PreambleCodeIndex
   (0x15, LenPolicy.fixed 1),   -- SfdId
   (0xA4, LenPolicy.fixed 2),   -- SelectedUwbConfigId
   (0x16, LenPolicy.fixed 1),   -- PsduDataRate
   (0x17, LenPolicy.fixed 1),   -- PreambleDuration
   (0x18, LenPolicy.fixed 1),   -- LinkLayerMode
   (0x19, LenPolicy.fixed 1),   -- DataRepetitionCount
   (0x1A, LenPolicy.fixed 1),   -- RangingTimeStruct
   (0x1B, LenPolicy.fixed 1),   -- SlotsPerRr
   (0x1D, LenPolicy.fixed 8),   -- SessionInfoNtfBoundAoa
   (0x1E, LenPolicy.fixed 1),   -- ResponderSlotIndex
   (0x1F, LenPolicy.fixed 1),   -- PrfMode
   (0x22, LenPolicy.fixed 1),   -- ScheduleMode
   (0x23, LenPolicy.fixed 1),   -- KeyRotation
   (0x24, LenPolicy.fixed 1),   -- KeyRotationRate
   (0x25, LenPolicy.fixed 1),   -- SessionPriority
   (0x26, LenPolicy.fixed 1),   -- MacAddressMode
   (0x27, LenPolicy.fixed 2),   -- VendorId
   (0x28, LenPolicy.fixed 6),   -- StaticStsIv
   (0x29, LenPolicy.fixed 1),   -- NumberOfStsSegments
   (0x2A, LenPolicy.fixed 2),   -- MaxRrRetry
   (0x2B, LenPolicy.fixed 8),   -- UwbInitiationTime
   (0x2C, LenPolicy.fixed 1),   -- HoppingMode
   (0x2D, LenPolicy.fixed 1),   -- BlockStrideLength
   (0x2E, LenPolicy.fixed 1),   -- ResultReportConfig
   (0x2F, LenPolicy.fixed 1),   -- InBandTerminationAttemptCount
   (0x30, LenPolicy.fixed 4),   -- SubSessionId
   (0x31, LenPolicy.fixed 1),   -- BprfPhrDataRate
   (0x32, LenPolicy.fixed 2),   -- MaxNumberOfMeasurements
   (0x33, LenPolicy.fixed 4),   -- UlTdoaTxInterval
   (0x34, LenPolicy.fixed 4),   -- UlTdoaRandomWindow
   (0x35, LenPolicy.fixed 1),   -- StsLength
   (0x38, LenPolicy.fixed 1),   -- UlTdoaDeviceId
   (0x39, LenPolicy.fixed 1),   -- UlTdoaTxTimestamp
   (0x13, LenPolicy.fixed 1),   -- RssiReporting
   (0x45, LenPolicy.alt 16 32), -- SessionKey
   (0x46, LenPolicy.fixed 16),  -- SubSessionKey
   (0x47, LenPolicy.fixed 1),   -- SessionDataTransferStatusNtfConfig
   (0xA0, LenPolicy.fixed 16),  -- HopModeKey
   (0xA1, LenPolicy.fixed 8),   -- CccUwbTime0
   (0xA3, LenPolicy.fixed 2),   -- SelectedProtVer
   (0xA5, LenPolicy.fixed 1),   -- SelectedShapeCombo
   (0xA6, LenPolicy.fixed 2),   -- URSK_TTL
   (0x3A, LenPolicy.fixed 1),   -- MinFramesPerRr
   (0xA8, LenPolicy.fixed 4),   -- CccStsIndex
   (0x3B, LenPolicy.fixed 2),   -- MtuSize
   (0x3C, LenPolicy.fixed 1),   -- InterFrameInterval
   (0x3F, LenPolicy.fixed 1),   -- DlTdoaHopCount
   (0x49, LenPolicy.fixed 1),   -- DlTdoaResponderTof
   (0x4D, LenPolicy.fixed 1),   -- OwrAoaMeasurementNtfPeriod
   (0xA9, LenPolicy.fixed 1),   -- Mac_mode
   (0xAA, LenPolicy.fixed 32)]  -- Ursk

end App

/-! ## `uci/fira_enums.py`: enumerations used by the claims -/

/-- `Status` member values (`fira_enums.py:101-141`); it has `Unknown = 0xFF`. -/
def statusValues : List ℤ :=
  [0x00, 0x01, 0x02, 0x03, 0x04, 0x05, 0x06, 0x07, 0x08, 0x09, 0x0A,
   0x11, 0x12, 0x13, 0x14, 0x15, 0x16, 0x17, 0x1A, 0x1B,
   0x20, 0x21, 0x22, 0x23, 0x24, 0x25, 0x26, 0x27, 0x28, 0x29, 0x2A,
   0x50, 0x51, 0xFF]

/-- `SessionState` member values (`fira_enums.py:187-192`); `Unknown = -1`. -/
def sessionStateValues : List ℤ := [0x0, 0x1, 0x2, 0x3, -1]

namespace SessionStateEnum

def Init : ℤ := 0x0
def DeInit : ℤ := 0x1
def Active : ℤ := 0x2
def Idle : ℤ := 0x3

end SessionStateEnum

/-- `SessionStateChangeReason` member values (`fira_enums.py:254-318`); the
class declares **no** `Unknown` member. -/
def sessionStateChangeReasonValues : List ℤ :=
  [0x00, 0x01, 0x02, 0x03, 0x04, 0x05,
   0x1D, 0x1E, 0x1F, 0x20, 0x21, 0x22, 0x23, 0x24, 0x25, 0x26, 0x27, 0x28,
   0x29, 0x2A, 0x2B, 0x2C, 0x2D, 0x2E, 0x2F, 0x30, 0x31, 0x32, 0x33, 0x34,
   0x35, 0x36, 0x37, 0x38, 0x39, 0x3A, 0x3B, 0x3C, 0x3D, 0x3E, 0x3F, 0x40,
   0x41, 0x42,
   0x80, 0x81, 0x82,
   0xF2, 0xF3, 0xF4, 0xF5, 0xF7, 0xF8, 0xF9, 0xFA, 0xFB, 0xFC, 0xFE, 0xFF]

namespace ReasonEnum

def StateChangeWithSessionManagementCommands : ℤ := 0x0
def SessionSuspendedDueToInbandSignal : ℤ := 0x03
def SessionResumedDueToInbandSignal : ℤ := 0x04
def SessionStoppedDueToInbandSignal : ℤ := 0x05

end ReasonEnum

/-! ## `uci/utils.py`: `Buffer` and `uci/fira_msg.py`: `SessionStatus` -/

/-- `Buffer.pop` (`utils.py:158-170`) for a nonnegative count `n` starting at
cursor `i`: raises `ValueError` when fewer than `n` bytes remain, otherwise
returns the popped bytes and the advanced cursor. -/
def bufferPop (buffer : List Nat) (i n : Nat) : Except PyErr (List Nat × Nat) :=
  if buffer.length - i < n then .error .valueError
  else .ok ((buffer.drop i).take n, i + n)

/-- `SessionStatus.__init__` (`fira_msg.py:112-127`): pops the 4-byte session
id, the 1-byte state (converted through `SessionState`, which has an
`Unknown = -1` member) and the 1-byte reason (converted through
`SessionStateChangeReason`, which has no `Unknown` member). -/
def sessionStatusDecode (payload : List Nat) : Except PyErr (Nat × ℤ × ℤ) := do
  let (b1, i1) ← bufferPop payload 0 4
  let sid := bytesToNatLE b1
  let (b2, i2) ← bufferPop payload i1 1
  let state ← enumConvert sessionStateValues (some (-1)) (bytesToNatLE b2 : ℤ)
  let (b3, _i3) ← bufferPop payload i2 1
  let reason ← enumConvert sessionStateChangeReasonValues none (bytesToNatLE b3 : ℤ)
  pure (sid, state, reason)

/-! ## `uci/utils.py`: fixed-point (`FP.from_float`, `FP.as_float`)

The construction value is a Python float; the fixed-point code only ever
multiplies it by a power of two, compares it, and rounds it, all of which are
exact on IEEE-754 doubles of the form `k / 2^n`, so the value is embedded as
`ℚ`.  `pyRound` is Python's `round`: nearest integer, ties to even. -/

def ratFloor (q : ℚ) : ℤ := q.num.fdiv q.den

def pyRound (q : ℚ) : ℤ :=
  let f := ratFloor q
  let frac := q - (f : ℚ)
  if frac < 1 / 2 then f
  else if 1 / 2 < frac then f + 1
  else if f % 2 = 0 then f else f + 1

namespace FP

/-- `FP.__init__` + `FP.from_float` (`utils.py:210-249`) for a float input:
the stored little-endian byte representation, or the exception raised.
The `__init__` check `(nbits % 8) != 0` (with `ignore_nbits_error=False`)
raises `ValueError` before `from_float` runs; `from_float` then rejects
negative values for unsigned fields and values above `(1 << n_int) - 1`, and
`v.to_bytes(..., signed=...)` raises `OverflowError` when the scaled value
does not fit. -/
def fromFloat (isSigned : Bool) (nInt nFract : Nat) (value : ℚ) :
    Except PyErr (List Nat) :=
  let nbits := nInt + nFract + (if isSigned then 1 else 0)
  if nbits % 8 ≠ 0 then .error .valueError
  else if !isSigned ∧ value < 0 then .error .valueError
  else if ((2 ^ nInt - 1 : ℤ) : ℚ) < value then .error .valueError
  else
    match intToBytesLE (nbits / 8) isSigned (pyRound (value * ((2 ^ nFract : ℤ) : ℚ))) with
    | some bs => .ok bs
    | none => .error .overflowError

/-- `FP.as_float` (`utils.py:251-256`). -/
def asFloat (isSigned : Bool) (nFract : Nat) (value : List Nat) : ℚ :=
  (bytesToIntLE isSigned value : ℚ) / ((2 ^ nFract : ℤ) : ℚ)

end FP

/-! ## `uci/addin_transport_uart.py`: `UartTransportProtocol`

State: the sliding `buffer` and the `is_synchronized` flag.  `checkData`
models the `check_data` loop (`addin_transport_uart.py:31-60`), returning the
packets handed to the callback and the remaining buffer.  Fuel
`buffer.length` is always sufficient: every delivered packet consumes at
least 4 bytes. -/

structure UartState where
  buffer : List Nat
  isSync : Bool
  deriving DecidableEq, Repr

/-- Size extraction from a 4-byte header (`addin_transport_uart.py:37-52`):
`none` is the unknown-`MT` error branch. -/
def sizeOfHeader (b0 b2 b3 : Nat) : Option Nat :=
  let mt := (b0 &&& 0xE0) >>> 5
  if mt = 0b001 ∨ mt = 0b010 ∨ mt = 0b011 then some b3
  else if mt = 0b000 then some (b2 ||| (b3 <<< 8))
  else if mt = 0b100 ∨ mt = 0b101 then some (b2 ||| (b3 <<< 8))
  else none

def checkData : Nat → List Nat → List (List Nat) × List Nat
  | 0, buf => ([], buf)
  | fuel + 1, buf =>
    match buf with
    | b0 :: _ :: b2 :: b3 :: _ =>
      match sizeOfHeader b0 b2 b3 with
      | none => ([], [])  -- Error -> flush data, return
      | some size =>
        if buf.length < 4 + size then ([], buf)
        else
          let pkt := buf.take (4 + size)
          let rec_ := checkData fuel (buf.drop (4 + size))
          (pkt :: rec_.1, rec_.2)
    | _ => ([], buf)  -- fewer than 4 bytes buffered

/-- `UartTransportProtocol.data_received` (`addin_transport_uart.py:62-74`):
returns the new state and the packets delivered to the callback.  `none`
models the `IndexError` of `data[0]` on an empty chunk in the
desynchronized state.  Note that when desynchronized the check looks only at
the FIRST byte of the chunk and purges the whole chunk on a mismatch. -/
def dataReceived (st : UartState) (data : List Nat) :
    Option (UartState × List (List Nat)) :=
  match st.isSync, data with
  | true, _ =>
    let buf := st.buffer ++ data
    let r := checkData buf.length buf
    some (⟨r.2, true⟩, r.1)
  | false, [] => none
  | false, d0 :: _ =>
    if (d0 &&& 0xF0) >>> 4 = 4 ∨ (d0 &&& 0xF0) >>> 4 = 6 ∨
       (d0 &&& 0xF0) >>> 4 = 5 ∨ (d0 &&& 0xF0) >>> 4 = 7 then
      let buf := st.buffer ++ data
      let r := checkData buf.length buf
      some (⟨r.2, true⟩, r.1)
    else
      -- recv bytes purged: data = b""
      let r := checkData st.buffer.length st.buffer
      some (⟨r.2, false⟩, r.1)

/-- Feeding a sequence of read chunks to the protocol, collecting every
packet delivered to the callback in order. -/
def feedChunks (st : UartState) : List (List Nat) → Option (UartState × List (List Nat))
  | [] => some (st, [])
  | c :: cs => do
    let r1 ← dataReceived st c
    let r2 ← feedChunks r1.1 cs
    pure (r2.1, r1.2 ++ r2.2)

/-! ## `uci/fira.py`: `Client_extension.session_deinit` (`fira.py:140-146`)

The composed `Client` object owns a `data_handler` dict (keyed by the string
`"default"` and by session ids, `fira.py:77-78`) and the response queue of
`core.Client`.  No class in the composition ever defines an attribute named
`handler`, so `self.handler.pop(sid)` raises `AttributeError` whenever the
guard `sid in self.data_handler` is true. -/

inductive HKey
  | strDefault
  | sid (n : Nat)
  deriving DecidableEq, Repr

structure ClientExtState where
  dataHandlerKeys : List HKey
  wq : List (Nat × Nat × List Nat)
  deriving DecidableEq, Repr

/-- `session_deinit(sid)`: result is `Status(payload[0:1])` as an integer
(`Status` has an `Unknown = 0xFF` member) together with the state after the
call.  `Gid.Session = 1` and the deinit opcode is the literal `1`. -/
def session_deinit (st : ClientExtState) (sid : Nat) :
    Except PyErr (ℤ × ClientExtState) :=
  if HKey.sid sid ∈ st.dataHandlerKeys then
    .error .attributeError  -- self.handler.pop(sid): no attribute `handler`
  else
    match intToBytesLE 4 false (sid : ℤ) with  -- sid.to_bytes(4, "little")
    | none => .error .overflowError
    | some payload =>
      match command st.wq 1 1 payload with
      | (.error e, _) => .error e
      | (.ok rpayload, wq1) => do
        let s ← enumConvert statusValues (some 0xFF) (bytesToNatLE (rpayload.take 1) : ℤ)
        pure (s, ⟨st.dataHandlerKeys, wq1⟩)

/-- Decidable equality for `Except`, used to evaluate the models on concrete
inputs. -/
instance exceptDecEq {ε α : Type} [DecidableEq ε] [DecidableEq α] :
    DecidableEq (Except ε α) := fun x y =>
  match x, y with
  | .ok u, .ok v => if h : u = v then .isTrue (by rw [h]) else .isFalse (by simp [h])
  | .error u, .error v => if h : u = v then .isTrue (by rw [h]) else .isFalse (by simp [h])
  | .ok _, .error _ => .isFalse (by simp)
  | .error _, .ok _ => .isFalse (by simp)

/-- A byte string that `check_data` accepts as one complete packet: a 4-byte
header whose `MT` is recognized, followed by exactly the payload length the
header declares. -/
def validPacket : List Nat → Bool
  | b0 :: _ :: b2 :: b3 :: rest => sizeOfHeader b0 b2 b3 = some rest.length
  | _ => false

/-- The resynchronization test of `data_received`
(`addin_transport_uart.py:66`): the top nibble of the byte is in `[4, 6, 5, 7]`. -/
def syncNibble (b : Nat) : Prop :=
  (b &&& 0xF0) >>> 4 = 4 ∨ (b &&& 0xF0) >>> 4 = 6 ∨
    (b &&& 0xF0) >>> 4 = 5 ∨ (b &&& 0xF0) >>> 4 = 7

instance (b : Nat) : Decidable (syncNibble b) := by
  unfold syncNibble; infer_instance

/-! # Theorems -/

/-- For in-range fields, the PBF bit read back from the first header byte is
the PBF that `send_packet` wrote. -/
theorem pbfOfByte_packed :
    ∀ mt < 8, ∀ pbf < 2, ∀ gid < 16,
      pbfOfByte (((mt <<< 5) ||| (pbf <<< 4)) ||| gid) = pbf := by
  decide

/-! ## C1: `Client.command` timeout / correlation -/

/-- Claim C1 (confirmed, for protocol-range `gid`/`oid`): a `command` call
that sees no response raises `UciComError(TimeoutError)` and leaves no sticky
state (a later call that does get its matching response succeeds); a response
`(rgid, roid)` different from `(gid, oid)` raises
`UciComError(ProtocolError)`; a matching response returns its payload. -/
theorem command_timeout_and_correlation (gid oid : Nat) (payload : List Nat)
    (hg : gid < 16) (ho : oid < 64) :
    (command [] gid oid payload = (.error (.uciCom .TimeoutError), []) ∧
      ∀ gid2 oid2 (payload2 rp : List Nat), gid2 < 16 → oid2 < 64 →
        command [(gid2, oid2, rp)] gid2 oid2 payload2 = (.ok rp, [])) ∧
    (∀ rgid roid (rp : List Nat) rest, (rgid, roid) ≠ (gid, oid) →
      command ((rgid, roid, rp) :: rest) gid oid payload =
        (.error (.uciCom .ProtocolError), rest)) ∧
    (∀ (rp : List Nat) rest,
      command ((gid, oid, rp) :: rest) gid oid payload = (.ok rp, rest)) := by
  have hg' : ¬ (16 ≤ gid) := by omega
  have ho' : ¬ (64 ≤ oid) := by omega
  refine ⟨⟨?_, ?_⟩, ?_, ?_⟩
  · simp [command, send_message, hg', ho']
  · intro gid2 oid2 payload2 rp hg2 ho2
    have hg2' : ¬ (16 ≤ gid2) := by omega
    have ho2' : ¬ (64 ≤ oid2) := by omega
    simp [command, send_message, hg2', ho2']
  · intro rgid roid rp rest hne
    simp [command, send_message, hg', ho', hne]
  · simp [command, send_message, hg', ho']

/-- Witness for C1 at `gid = 1`, `oid = 0`. -/
theorem command_timeout_and_correlation_witness :
    (command [] 1 0 [0xAB] = (.error (.uciCom .TimeoutError), []) ∧
      command [(1, 0, [0x00])] 1 0 [0xCD] = (.ok [0x00], [])) ∧
    command [(2, 5, [0x00])] 1 0 [0xAB] = (.error (.uciCom .ProtocolError), []) ∧
    command [(1, 0, [0x07])] 1 0 [0xAB] = (.ok [0x07], []) := by
  obtain ⟨⟨h1, h2⟩, h3, h4⟩ :=
    command_timeout_and_correlation 1 0 [0xAB] (by norm_num) (by norm_num)
  exact ⟨⟨h1, h2 1 0 [0xCD] [0x00] (by norm_num) (by norm_num)⟩,
    h3 2 5 [0x00] [] (by decide), h4 [0x07] []⟩

/-! ## C10: `send_message` on an empty payload -/

/-- Claim C10 (confirmed): an empty payload still produces exactly one packet,
whose PBF is `Final` (0) and whose payload-length byte is 0. -/
theorem send_message_empty_payload (mt gid oid : Nat)
    (hm : mt < 8) (hg : gid < 16) (ho : oid < 64) :
    send_message mt gid oid [] = .ok [send_packet mt gid oid 0 []] ∧
    send_packet mt gid oid 0 [] =
      [((mt <<< 5) ||| (0 <<< 4)) ||| gid, oid, 0, 0] ∧
    pbfOfPacket (send_packet mt gid oid 0 []) = 0 := by
  have hm' : ¬ (8 ≤ mt) := by omega
  have hg' : ¬ (16 ≤ gid) := by omega
  have ho' : ¬ (64 ≤ oid) := by omega
  refine ⟨?_, rfl, ?_⟩
  · simp [send_message, hm', hg', ho', fragments, fragmentsAux]
  · exact pbfOfByte_packed mt hm 0 (by norm_num) gid hg

/-- Witness for C10 at `(mt, gid, oid) = (1, 2, 3)`. -/
theorem send_message_empty_payload_witness :
    send_message 1 2 3 [] = .ok [send_packet 1 2 3 0 []] ∧
    send_packet 1 2 3 0 [] = [0x22, 3, 0, 0] ∧
    pbfOfPacket (send_packet 1 2 3 0 []) = 0 := by
  obtain ⟨h1, _, h3⟩ :=
    send_message_empty_payload 1 2 3 (by norm_num) (by norm_num) (by norm_num)
  exact ⟨h1, by decide, h3⟩

/-! ## C3: UART resynchronization -/

/-- Counterexample to claim C3: one garbage byte `0x00` (top nibble `0`,
not in `{4,5,6,7}`) prepended to the valid 4-byte Response packet
`41 00 00 00` *in the same read chunk* makes `data_received` purge the whole
chunk, so the valid packet is never delivered — the claim promises it is
still delivered.  Fed on its own, the same packet is delivered. -/
theorem resync_mixed_chunk_counterexample :
    feedChunks ⟨[], false⟩ [[0x00, 0x41, 0x00, 0x00, 0x00]] =
      some (⟨[], false⟩, []) ∧
    feedChunks ⟨[], false⟩ [[0x41, 0x00, 0x00, 0x00]] =
      some (⟨[], true⟩, [[0x41, 0x00, 0x00, 0x00]]) := by
  decide

/-! ## C4: unknown-tag tolerance of `tlvs_from_bytes` -/

/-- Claim C4 is refuted by the code: decoding the single TLV
`(tag 0x48, length 1, value 0x00)` against the `App` table raises
`AttributeError` (from `DefaultEnum._missing_` evaluating `App.Unknown`,
which does not exist) instead of returning the item with the raw tag.
The second conjunct shows the same payload with the known tag `0x47`
decodes fine, isolating the failure to the unknown tag. -/
theorem tlvs_unknown_tag_attribute_error :
    tlvs_from_bytes App.defs App.values none [0x01, 0x48, 0x01, 0x00] =
      .error .attributeError ∧
    tlvs_from_bytes App.defs App.values none [0x01, 0x47, 0x01, 0x00] =
      .ok [(.member 0x47, 1, .scalar 0)] := by
  decide

/-! ## C6: `SESSION_STATUS_NTF` decoding -/

/-- Counterexample to claim C6: the payload `2A 00 00 00 02 04` does *not*
decode to reason `SessionSuspendedDueToInbandSignal` (0x03); its reason byte
is 0x04. -/
theorem session_status_reason_counterexample :
    sessionStatusDecode [0x2A, 0x00, 0x00, 0x00, 0x02, 0x04] ≠
      .ok (42, SessionStateEnum.Active,
        ReasonEnum.SessionSuspendedDueToInbandSignal) := by
  decide

/-- Amended claim C6: the payload `2A 00 00 00 02 04` decodes to session id
42, state `Active` and reason `SessionResumedDueToInbandSignal` (0x04). -/
theorem session_status_decode_resumed :
    sessionStatusDecode [0x2A, 0x00, 0x00, 0x00, 0x02, 0x04] =
      .ok (42, SessionStateEnum.Active,
        ReasonEnum.SessionResumedDueToInbandSignal) := by
  decide

/-! ## C7: unknown `MT` in the framing decoder -/

/-- Counterexample to claim C7: after a good Response packet establishes
synchronization, a chunk with unknown `MT` (first byte `0xC0`, `MT = 6`)
flushes the buffer but the decoder stays synchronized (`isSync = true`,
whereas the claim requires a return to the desynchronized state); the
follow-up chunk starting with garbage byte `0x00` is then accepted and even
delivered as a packet instead of being dropped by the resynchronization
check. -/
theorem unknown_mt_keeps_sync_counterexample :
    feedChunks ⟨[], false⟩ [[0x41, 0, 0, 0], [0xC0, 0, 0, 0]] =
      some (⟨[], true⟩, [[0x41, 0, 0, 0]]) ∧
    feedChunks ⟨[], false⟩ [[0x41, 0, 0, 0], [0xC0, 0, 0, 0], [0x00, 0, 0, 0]] =
      some (⟨[], true⟩, [[0x41, 0, 0, 0], [0x00, 0, 0, 0]]) := by
  decide

/-! ## C8: `session_deinit` with a registered data handler -/

/-- Claim C8 is refuted by the code: with a data handler registered for
sid 42, `session_deinit(42)` raises `AttributeError` (`self.handler` does not
exist; the dict is `self.data_handler`) even though a well-formed `Ok`
response is queued.  Without a registered handler the same call succeeds and
returns `Status.Ok`, isolating the failure to the handler-removal line. -/
theorem session_deinit_attribute_error :
    session_deinit ⟨[HKey.strDefault, HKey.sid 42], [(1, 1, [0x00])]⟩ 42 =
      .error .attributeError ∧
    session_deinit ⟨[HKey.strDefault], [(1, 1, [0x00])]⟩ 42 =
      .ok (0, ⟨[HKey.strDefault], []⟩) := by
  decide

/-! ## C2: fragmentation of `send_message` -/

theorem fragmentsAux_flatten (fuel : Nat) :
    ∀ payload : List Nat, ((fragmentsAux fuel payload).map Prod.snd).flatten = payload := by
  induction fuel with
  | zero => intro payload; simp [fragmentsAux]
  | succ fuel ih =>
    intro payload
    by_cases h : 250 < payload.length
    · simp [fragmentsAux, h, ih]
    · simp [fragmentsAux, h]

theorem fragmentsAux_chunk_le (fuel : Nat) :
    ∀ payload : List Nat, payload.length ≤ 250 * fuel + 250 →
      ∀ c ∈ fragmentsAux fuel payload, c.2.length ≤ 250 := by
  induction fuel with
  | zero =>
    intro payload h c hc
    simp [fragmentsAux] at hc
    subst hc
    simpa using h
  | succ fuel ih =>
    intro payload h c hc
    by_cases h250 : 250 < payload.length
    · simp only [fragmentsAux, if_pos h250, List.mem_cons] at hc
      rcases hc with rfl | hc
      · simp
      · exact ih _ (by simp; omega) c hc
    · simp [fragmentsAux, h250] at hc
      subst hc
      simp only []
      omega

theorem fragmentsAux_pbf_split (fuel : Nat) :
    ∀ payload : List Nat, ∃ ini lc,
      fragmentsAux fuel payload = ini ++ [(0, lc)] ∧ ∀ c ∈ ini, c.1 = 1 := by
  induction fuel with
  | zero => intro payload; exact ⟨[], payload, rfl, by simp⟩
  | succ fuel ih =>
    intro payload
    by_cases h : 250 < payload.length
    · obtain ⟨ini, lc, heq, hini⟩ := ih (payload.drop 250)
      refine ⟨(1, payload.take 250) :: ini, lc, ?_, ?_⟩
      · simp [fragmentsAux, h, heq]
      · intro c hc
        rcases List.mem_cons.mp hc with rfl | hc
        · rfl
        · exact hini c hc
    · exact ⟨[], payload, by simp [fragmentsAux, h], by simp⟩

theorem pbfOfPacket_send_packet (mt gid oid pbf : Nat) (pl : List Nat) :
    pbfOfPacket (send_packet mt gid oid pbf pl) =
      pbfOfByte (((mt <<< 5) ||| (pbf <<< 4)) ||| gid) := rfl

theorem drop4_send_packet (mt gid oid pbf : Nat) (pl : List Nat) :
    (send_packet mt gid oid pbf pl).drop 4 = pl := rfl

set_option maxRecDepth 8000 in
/-- Claim C2 (confirmed): for a 3-bit `mt`, 4-bit `gid`, 6-bit `oid` and any
payload up to 64 KiB, `send_message` emits packets whose payloads are each at
most 250 bytes and concatenate to the original payload, with `PBF = 1` on
every packet but the last and `PBF = 0` on the last; in particular a 260-byte
payload splits into a 250-byte `PBF = 1` packet and a 10-byte `PBF = 0`
packet. -/
theorem send_message_fragmentation :
    (∀ (mt gid oid : Nat) (payload : List Nat),
      mt < 8 → gid < 16 → oid < 64 → payload.length ≤ 65536 →
      ∃ pkts, send_message mt gid oid payload = .ok pkts ∧
        (∀ pkt ∈ pkts, (pkt.drop 4).length ≤ 250) ∧
        (pkts.map fun p => p.drop 4).flatten = payload ∧
        ∃ ini lastPkt, pkts = ini ++ [lastPkt] ∧
          (∀ p ∈ ini, pbfOfPacket p = 1) ∧ pbfOfPacket lastPkt = 0) ∧
    (∀ mt gid oid : Nat, mt < 8 → gid < 16 → oid < 64 →
      send_message mt gid oid (List.replicate 260 0xAA) =
        .ok [send_packet mt gid oid 1 (List.replicate 250 0xAA),
             send_packet mt gid oid 0 (List.replicate 10 0xAA)]) := by
  constructor
  · intro mt gid oid payload hm hg ho _hlen
    have hm' : ¬ (8 ≤ mt) := by omega
    have hg' : ¬ (16 ≤ gid) := by omega
    have ho' : ¬ (64 ≤ oid) := by omega
    refine ⟨(fragments payload).map fun pc => send_packet mt gid oid pc.1 pc.2,
      by simp [send_message, hm', hg', ho'], ?_, ?_, ?_⟩
    · intro pkt hpkt
      obtain ⟨pc, hpc, rfl⟩ := List.mem_map.mp hpkt
      rw [drop4_send_packet]
      exact fragmentsAux_chunk_le payload.length payload (by omega) pc hpc
    · rw [List.map_map]
      have : ((fun p => List.drop 4 p) ∘ fun pc => send_packet mt gid oid pc.1 pc.2) =
          (Prod.snd : Nat × List Nat → List Nat) := by
        funext pc; simp [drop4_send_packet]
      rw [this]
      exact fragmentsAux_flatten payload.length payload
    · obtain ⟨ini, lc, heq, hini⟩ := fragmentsAux_pbf_split payload.length payload
      refine ⟨ini.map fun pc => send_packet mt gid oid pc.1 pc.2,
        send_packet mt gid oid 0 lc, ?_, ?_, ?_⟩
      · rw [show fragments payload = ini ++ [(0, lc)] from heq, List.map_append]
        rfl
      · intro p hp
        obtain ⟨pc, hpc, rfl⟩ := List.mem_map.mp hp
        rw [pbfOfPacket_send_packet, hini pc hpc]
        exact pbfOfByte_packed mt hm 1 (by norm_num) gid hg
      · rw [pbfOfPacket_send_packet]
        exact pbfOfByte_packed mt hm 0 (by norm_num) gid hg
  · have hfrag : fragments (List.replicate 260 0xAA) =
        [(1, List.replicate 250 0xAA), (0, List.replicate 10 0xAA)] := by
      decide
    intro mt gid oid hm hg ho
    have hm' : ¬ (2 ^ 3 ≤ mt) := by norm_num; omega
    have hg' : ¬ (2 ^ 4 ≤ gid) := by norm_num; omega
    have ho' : ¬ (2 ^ 6 ≤ oid) := by norm_num; omega
    unfold send_message
    rw [if_neg hm', if_neg hg', if_neg ho', hfrag]
    rfl

set_option maxRecDepth 8000 in
/-- Witness for C2: the 260-byte fragmentation at `(mt, gid, oid) = (2, 3, 2)`. -/
theorem send_message_fragmentation_witness :
    send_message 2 3 2 (List.replicate 260 0xAA) =
      .ok [send_packet 2 3 2 1 (List.replicate 250 0xAA),
           send_packet 2 3 2 0 (List.replicate 10 0xAA)] :=
  send_message_fragmentation.2 2 3 2 (by norm_num) (by norm_num) (by norm_num)


/-! ## C9: alternative-length encoding in `tvs_to_bytes` -/

theorem tvs_to_bytes_singleton (defs : List (Nat × LenPolicy)) (t : Nat) (v : TlvInput) :
    tvs_to_bytes defs [(t, v)] =
      match tvItem defs t v with
      | .ok bs => .ok (1 :: bs)
      | .error e => .error e := by
  cases h : tvItem defs t v <;>
    simp [tvs_to_bytes, List.mapM.loop, bind, Except.bind, Functor.map,
      Except.map, pure, Except.pure, byte1, h]

theorem tvItem_bytes_alt32 (defs : List (Nat × LenPolicy)) (t a b : Nat)
    (v : List Nat) (hlook : get_length defs t = .ok (.alt a b)) (ht : t < 256)
    (hb : b < 256) (h32 : v.length = 32) :
    tvItem defs t (.bytes v) =
      if (32 : Nat) = b then .ok (t :: b :: v) else .error .valueError := by
  by_cases heq : (32 : Nat) = b <;>
    simp [tvItem, hlook, byte1, ht, bind, Except.bind, pure, Except.pure,
      hb, h32, heq]

theorem tvItem_bytes_altA (defs : List (Nat × LenPolicy)) (t a b : Nat)
    (v : List Nat) (hlook : get_length defs t = .ok (.alt a b)) (ht : t < 256)
    (ha : a < 256) (h32 : v.length ≠ 32) :
    tvItem defs t (.bytes v) =
      if v.length = a then .ok (t :: a :: v) else .error .valueError := by
  by_cases heq : v.length = a
  · simp [tvItem, hlook, byte1, ht, bind, Except.bind, pure, Except.pure,
      ha, h32, heq, show a ≠ 32 from by omega]
  · simp [tvItem, hlook, byte1, ht, bind, Except.bind, pure, Except.pure,
      ha, h32, heq]

/-- Claim C9 (confirmed): for a tag declared with alternative lengths
`[a, b]`, the encoder selects `b` exactly when the supplied bytes value has
length 32 and `a` otherwise; a mismatch between the value's length and the
selected declared length raises `ValueError("BadLength")`, so a bytes value
of length `b` is rejected whenever `b ≠ 32`. -/
theorem tvs_to_bytes_alt_length (defs : List (Nat × LenPolicy)) (t a b : Nat)
    (v : List Nat) (hlook : get_length defs t = .ok (.alt a b))
    (ht : t < 256) (ha : a < 256) (hb : b < 256) (hab : a ≠ b) :
    (v.length = 32 →
      (b = 32 → tvs_to_bytes defs [(t, .bytes v)] = .ok (1 :: t :: b :: v)) ∧
      (b ≠ 32 → tvs_to_bytes defs [(t, .bytes v)] = .error .valueError)) ∧
    (v.length ≠ 32 →
      (v.length = a → tvs_to_bytes defs [(t, .bytes v)] = .ok (1 :: t :: a :: v)) ∧
      (v.length ≠ a → tvs_to_bytes defs [(t, .bytes v)] = .error .valueError)) ∧
    (v.length = b → b ≠ 32 → tvs_to_bytes defs [(t, .bytes v)] = .error .valueError) := by
  refine ⟨fun h32 => ⟨fun hb32 => ?_, fun hb32 => ?_⟩,
    fun h32 => ⟨fun hva => ?_, fun hva => ?_⟩, fun hvb hb32 => ?_⟩
  · rw [tvs_to_bytes_singleton, tvItem_bytes_alt32 defs t a b v hlook ht hb h32]
    simp [show (32 : Nat) = b from hb32.symm]
  · rw [tvs_to_bytes_singleton, tvItem_bytes_alt32 defs t a b v hlook ht hb h32]
    simp [show ¬ ((32 : Nat) = b) from fun h => hb32 h.symm]
  · rw [tvs_to_bytes_singleton, tvItem_bytes_altA defs t a b v hlook ht ha h32]
    simp [hva]
  · rw [tvs_to_bytes_singleton, tvItem_bytes_altA defs t a b v hlook ht ha h32]
    simp [hva]
  · have h32 : v.length ≠ 32 := by omega
    rw [tvs_to_bytes_singleton, tvItem_bytes_altA defs t a b v hlook ht ha h32]
    simp [show ¬ (v.length = a) from by omega]


/-- Witness for C9 on the real `App` table: `SessionKey` (`0x45`, lengths
`[16, 32]`) accepts 16- and 32-byte keys and rejects a 20-byte key. -/
theorem tvs_to_bytes_alt_length_witness :
    tvs_to_bytes App.defs [(0x45, .bytes (List.replicate 32 0x07))] =
      .ok (1 :: 0x45 :: 32 :: List.replicate 32 0x07) ∧
    tvs_to_bytes App.defs [(0x45, .bytes (List.replicate 16 0x07))] =
      .ok (1 :: 0x45 :: 16 :: List.replicate 16 0x07) ∧
    tvs_to_bytes App.defs [(0x45, .bytes (List.replicate 20 0x07))] =
      .error .valueError := by
  refine ⟨?_, ?_, ?_⟩
  · exact ((tvs_to_bytes_alt_length App.defs 0x45 16 32 (List.replicate 32 0x07)
      (by decide) (by decide) (by decide) (by decide) (by decide)).1
        (by decide)).1 rfl
  · exact ((tvs_to_bytes_alt_length App.defs 0x45 16 32 (List.replicate 16 0x07)
      (by decide) (by decide) (by decide) (by decide) (by decide)).2.1
        (by decide)).1 (by decide)
  · exact ((tvs_to_bytes_alt_length App.defs 0x45 16 32 (List.replicate 20 0x07)
      (by decide) (by decide) (by decide) (by decide) (by decide)).2.1
        (by decide)).2 (by decide)

/-! ## C3 (amended): resynchronization with separate garbage chunks -/

theorem checkData_nil (fuel : Nat) : checkData fuel [] = ([], []) := by
  cases fuel <;> rfl

theorem checkData_valid_stream (ps : List (List Nat)) :
    ∀ fuel : Nat, (∀ p ∈ ps, validPacket p = true) → ps.flatten.length ≤ fuel →
      checkData fuel ps.flatten = (ps, []) := by
  induction ps with
  | nil => intro fuel _ _; simpa using checkData_nil fuel
  | cons p ps ih =>
    intro fuel hv hlen
    have hp : validPacket p = true := hv p (List.mem_cons_self _ _)
    rcases p with _ | ⟨b0, _ | ⟨b1, _ | ⟨b2, _ | ⟨b3, rest⟩⟩⟩⟩ <;>
      try simp [validPacket] at hp
    have hsz : sizeOfHeader b0 b2 b3 = some rest.length := by
      simpa [validPacket] using hp
    have hflat : ((b0 :: b1 :: b2 :: b3 :: rest) :: ps).flatten =
        (b0 :: b1 :: b2 :: b3 :: rest) ++ ps.flatten := by simp
    rw [hflat] at hlen ⊢
    have hlen4 : 4 + rest.length + ps.flatten.length ≤ fuel := by
      rw [List.length_append] at hlen
      simp only [List.length_cons] at hlen
      omega
    cases fuel with
    | zero => omega
    | succ fuel =>
      have hplen : (b0 :: b1 :: b2 :: b3 :: rest).length = 4 + rest.length := by
        simp; omega
      rw [show (b0 :: b1 :: b2 :: b3 :: rest) ++ ps.flatten =
        b0 :: b1 :: b2 :: b3 :: (rest ++ ps.flatten) from by simp]
      simp only [checkData, hsz]
      rw [if_neg (by simp; omega)]
      rw [show b0 :: b1 :: b2 :: b3 :: (rest ++ ps.flatten) =
        (b0 :: b1 :: b2 :: b3 :: rest) ++ ps.flatten from by simp]
      rw [List.take_left' hplen, List.drop_left' hplen]
      rw [ih fuel (fun q hq => hv q (List.mem_cons_of_mem _ hq)) (by omega)]

theorem dataReceived_sync (st : UartState) (data : List Nat) (hs : st.isSync = true) :
    dataReceived st data =
      some (⟨(checkData (st.buffer ++ data).length (st.buffer ++ data)).2, true⟩,
        (checkData (st.buffer ++ data).length (st.buffer ++ data)).1) := by
  obtain ⟨buf, sync⟩ := st
  cases sync
  · simp at hs
  · cases data <;> rfl

theorem feedChunks_garbage (gs : List Nat) :
    ∀ cs : List (List Nat), (∀ g ∈ gs, ¬ syncNibble g) →
      feedChunks ⟨[], false⟩ ((gs.map fun g => [g]) ++ cs) =
        feedChunks ⟨[], false⟩ cs := by
  induction gs with
  | nil => intro cs _; rfl
  | cons g gs ih =>
    intro cs hg
    have hgn : ¬ syncNibble g := hg g (List.mem_cons_self _ _)
    have h1 : dataReceived ⟨[], false⟩ [g] = some (⟨[], false⟩, []) := by
      simp only [dataReceived]
      rw [if_neg (by simpa [syncNibble] using hgn)]
      rfl
    calc feedChunks ⟨[], false⟩ (([g] :: gs.map fun g => [g]) ++ cs)
        = feedChunks ⟨[], false⟩ ((gs.map fun g => [g]) ++ cs) := by
          simp only [List.cons_append, feedChunks, h1, Option.bind_eq_bind,
            Option.some_bind]
          cases feedChunks ⟨[], false⟩ ((gs.map fun g => [g]) ++ cs) <;> simp
      _ = feedChunks ⟨[], false⟩ cs := ih cs fun q hq => hg q (List.mem_cons_of_mem _ hq)

/-- Amended claim C3: up to 16 garbage bytes whose top nibble is not in
`{4,5,6,7}`, each arriving in its own read chunk before any valid data, are
dropped; the stream synchronizes at the first chunk whose first byte has top
nibble in `{4,5,6,7}` and every complete valid packet of the following valid
stream is delivered to the callback in order.  (As the counterexample shows,
this fails when garbage and valid bytes share one chunk, because the check
looks only at the chunk's first byte and purges the whole chunk.) -/
theorem resync_separate_chunks (gs : List Nat) (ps : List (List Nat)) (b0 : Nat)
    (_hn : gs.length ≤ 16) (hg : ∀ g ∈ gs, ¬ syncNibble g)
    (hv : ∀ p ∈ ps, validPacket p = true)
    (hhead : ps.flatten.head? = some b0) (hb0 : syncNibble b0) :
    feedChunks ⟨[], false⟩ ((gs.map fun g => [g]) ++ [ps.flatten]) =
      some (⟨[], true⟩, ps) := by
  rw [feedChunks_garbage gs [ps.flatten] hg]
  obtain ⟨tail, htail⟩ : ∃ tail, ps.flatten = b0 :: tail := by
    cases hps : ps.flatten with
    | nil => rw [hps] at hhead; simp at hhead
    | cons x xs =>
      rw [hps] at hhead
      simp at hhead
      exact ⟨xs, by rw [hhead]⟩
  have hcd : checkData ps.flatten.length ps.flatten = (ps, []) :=
    checkData_valid_stream ps ps.flatten.length hv le_rfl
  have h1 : dataReceived ⟨[], false⟩ ps.flatten = some (⟨[], true⟩, ps) := by
    rw [htail]
    simp only [dataReceived]
    rw [if_pos (by simpa [syncNibble] using hb0)]
    have : ([] : List Nat) ++ b0 :: tail = ps.flatten := by rw [htail]; rfl
    rw [this, hcd]
  simp [feedChunks, h1]


/-- Witness for the amended C3: three garbage bytes fed as separate chunks,
then one chunk holding a Response packet and a Notification packet. -/
theorem resync_separate_chunks_witness :
    feedChunks ⟨[], false⟩
      ([[0x00], [0x17], [0x2A]] ++
        [[0x41, 0x00, 0x00, 0x01, 0xAB, 0x62, 0x05, 0x00, 0x00]]) =
      some (⟨[], true⟩, [[0x41, 0x00, 0x00, 0x01, 0xAB], [0x62, 0x05, 0x00, 0x00]]) := by
  have h := resync_separate_chunks [0x00, 0x17, 0x2A]
    [[0x41, 0x00, 0x00, 0x01, 0xAB], [0x62, 0x05, 0x00, 0x00]] 0x41
    (by decide) (by decide) (by decide) (by decide) (by decide)
  simpa using h

/-! ## C7 (amended): unknown `MT` flushes but does not desynchronize -/

theorem checkData_unknown_mt (fuel : Nat) (b0 b1 b2 b3 : Nat) (rest : List Nat)
    (hfuel : 1 ≤ fuel) (hsz : sizeOfHeader b0 b2 b3 = none) :
    checkData fuel (b0 :: b1 :: b2 :: b3 :: rest) = ([], []) := by
  cases fuel with
  | zero => omega
  | succ fuel => simp only [checkData, hsz]

/-- Amended claim C7: when a synchronized decoder's buffer plus the arriving
chunk starts with a 4-byte header whose `MT` is not recognized, the entire
buffer is flushed and no packet is delivered, but the decoder stays
synchronized (`is_synchronized` is never reset), so subsequently arriving
bytes are **not** re-subjected to the resynchronization check. -/
theorem unknown_mt_flush_keeps_sync (st : UartState) (data : List Nat)
    (b0 b1 b2 b3 : Nat) (rest : List Nat) (hs : st.isSync = true)
    (hbuf : st.buffer ++ data = b0 :: b1 :: b2 :: b3 :: rest)
    (hmt : 6 ≤ mtOfByte b0) :
    dataReceived st data = some (⟨[], true⟩, []) := by
  simp only [mtOfByte] at hmt
  have hsz : sizeOfHeader b0 b2 b3 = none := by
    simp only [sizeOfHeader]
    rw [if_neg (by omega), if_neg (by omega), if_neg (by omega)]
  rw [dataReceived_sync st data hs, hbuf,
    checkData_unknown_mt _ b0 b1 b2 b3 rest (by simp) hsz]

/-- Witness for the amended C7: a synchronized decoder holding `0xC5`
receives the rest of a header with `MT = 6`; the buffer is flushed and the
synchronized flag stays set. -/
theorem unknown_mt_flush_keeps_sync_witness :
    dataReceived ⟨[0xC5], true⟩ [0x01, 0x02, 0x03] = some (⟨[], true⟩, []) :=
  unknown_mt_flush_keeps_sync ⟨[0xC5], true⟩ [0x01, 0x02, 0x03]
    0xC5 0x01 0x02 0x03 [] rfl rfl (by decide)

/-! ## C5: fixed-point construction and round-trip -/

theorem intToBytesLE_true (L : Nat) (v : ℤ) :
    intToBytesLE L true v =
      if -(2 ^ (8 * L - 1)) ≤ v ∧ v < 2 ^ (8 * L - 1) then
        some (natToBytesLE L (v % 2 ^ (8 * L)).toNat)
      else none := rfl

theorem intToBytesLE_false (L : Nat) (v : ℤ) :
    intToBytesLE L false v =
      if 0 ≤ v ∧ v < 2 ^ (8 * L) then some (natToBytesLE L v.toNat)
      else none := rfl

theorem natToBytesLE_length (L : Nat) : ∀ n, (natToBytesLE L n).length = L := by
  induction L with
  | zero => intro n; rfl
  | succ L ih => intro n; simp [natToBytesLE, ih]

theorem bytesToNatLE_cons (b : Nat) (bs : List Nat) :
    bytesToNatLE (b :: bs) = b + 256 * bytesToNatLE bs := rfl

theorem bytesToNatLE_natToBytesLE (L : Nat) :
    ∀ n, bytesToNatLE (natToBytesLE L n) = n % 2 ^ (8 * L) := by
  induction L with
  | zero => intro n; simp [natToBytesLE, bytesToNatLE, Nat.mod_one]
  | succ L ih =>
    intro n
    have hpow : 2 ^ (8 * (L + 1)) = 256 * 2 ^ (8 * L) := by
      rw [show 8 * (L + 1) = 8 + 8 * L from by ring, pow_add]
      norm_num
    rw [natToBytesLE, bytesToNatLE_cons, ih, hpow, Nat.mod_mul]

theorem intToBytesLE_unsigned_roundtrip (L : Nat) (k : ℤ)
    (h0 : 0 ≤ k) (h1 : k < 2 ^ (8 * L)) :
    ∃ bs, intToBytesLE L false k = some bs ∧ bs.length = L ∧
      bytesToIntLE false bs = k := by
  have hpowN : ((2 ^ (8 * L) : ℕ) : ℤ) = (2 : ℤ) ^ (8 * L) := by push_cast; rfl
  refine ⟨natToBytesLE L k.toNat, ?_, natToBytesLE_length L _, ?_⟩
  · rw [intToBytesLE_false, if_pos ⟨h0, h1⟩]
  · have hlt : k.toNat < 2 ^ (8 * L) := by omega
    simp only [bytesToIntLE, natToBytesLE_length, bytesToNatLE_natToBytesLE,
      Nat.mod_eq_of_lt hlt, Bool.false_eq_true, false_and, if_false]
    omega

theorem intToBytesLE_signed_roundtrip (L : Nat) (k : ℤ) (hL : 1 ≤ L)
    (h0 : -(2 ^ (8 * L - 1)) ≤ k) (h1 : k < 2 ^ (8 * L - 1)) :
    ∃ bs, intToBytesLE L true k = some bs ∧ bs.length = L ∧
      bytesToIntLE true bs = k := by
  have hexp : 8 * L - 1 + 1 = 8 * L := by omega
  have hpow : (2 : ℤ) ^ (8 * L) = 2 * 2 ^ (8 * L - 1) := by
    calc (2 : ℤ) ^ (8 * L) = 2 ^ (8 * L - 1 + 1) := by rw [hexp]
    _ = 2 ^ (8 * L - 1) * 2 := pow_succ _ _
    _ = 2 * 2 ^ (8 * L - 1) := by ring
  have hpowN : ((2 ^ (8 * L) : ℕ) : ℤ) = (2 : ℤ) ^ (8 * L) := by push_cast; rfl
  have hpowN1 : ((2 ^ (8 * L - 1) : ℕ) : ℤ) = (2 : ℤ) ^ (8 * L - 1) := by
    push_cast; rfl
  have hP : (0 : ℤ) < 2 ^ (8 * L - 1) := by positivity
  have hm : k % ((2 : ℤ) ^ (8 * L)) = if 0 ≤ k then k else k + 2 ^ (8 * L) := by
    by_cases hk : 0 ≤ k
    · rw [if_pos hk]
      exact Int.emod_eq_of_lt hk (by omega)
    · rw [if_neg hk]
      have heq : (k + (2 : ℤ) ^ (8 * L)) % ((2 : ℤ) ^ (8 * L)) =
          k % ((2 : ℤ) ^ (8 * L)) := by
        simp
      rw [← heq]
      exact Int.emod_eq_of_lt (by omega) (by omega)
  have hcast : (((k % ((2 : ℤ) ^ (8 * L))).toNat : ℤ)) =
      if 0 ≤ k then k else k + 2 ^ (8 * L) := by
    rw [hm]; split <;> omega
  refine ⟨natToBytesLE L (k % 2 ^ (8 * L)).toNat, ?_, natToBytesLE_length L _, ?_⟩
  · rw [intToBytesLE_true, if_pos (⟨h0, h1⟩ : _ ∧ _)]
  · have hlt : (k % ((2 : ℤ) ^ (8 * L))).toNat < 2 ^ (8 * L) := by
      by_cases hk : 0 ≤ k <;> omega
    simp only [bytesToIntLE, natToBytesLE_length, bytesToNatLE_natToBytesLE,
      Nat.mod_eq_of_lt hlt, true_and]
    split
    · next hcond =>
      by_cases hk : 0 ≤ k
      · exfalso
        rw [if_pos hk] at hcast
        omega
      · rw [if_neg hk] at hcast
        omega
    · next hcond =>
      by_cases hk : 0 ≤ k
      · rw [if_pos hk] at hcast
        omega
      · exfalso
        rw [if_neg hk] at hcast
        omega


theorem ratFloor_intCast (k : ℤ) : ratFloor (k : ℚ) = k := by
  simp [ratFloor, Rat.intCast_num, Rat.intCast_den]

theorem pyRound_intCast (k : ℤ) : pyRound (k : ℚ) = k := by
  simp only [pyRound, ratFloor_intCast, sub_self]
  norm_num

theorem fromFloat_signed_def (m n : Nat) (value : ℚ) :
    FP.fromFloat true m n value =
      if (m + n + 1) % 8 ≠ 0 then .error .valueError
      else if ((2 ^ m - 1 : ℤ) : ℚ) < value then .error .valueError
      else
        match intToBytesLE ((m + n + 1) / 8) true
          (pyRound (value * (((2 ^ n : ℤ)) : ℚ))) with
        | some bs => .ok bs
        | none => .error .overflowError := by
  simp [FP.fromFloat]

theorem fromFloat_unsigned_def (m n : Nat) (value : ℚ) :
    FP.fromFloat false m n value =
      if (m + n) % 8 ≠ 0 then .error .valueError
      else if value < 0 then .error .valueError
      else if ((2 ^ m - 1 : ℤ) : ℚ) < value then .error .valueError
      else
        match intToBytesLE ((m + n) / 8) false
          (pyRound (value * (((2 ^ n : ℤ)) : ℚ))) with
        | some bs => .ok bs
        | none => .error .overflowError := by
  simp [FP.fromFloat]

/-- Amended claim C5: for a float `v = k / 2^n`, construction succeeds and
`as_float` returns `v` exactly whenever the scaled value fits the stored
width — signed `Qm.n`: `-2^(m+n) ≤ k ≤ (2^m - 1)·2^n` (so `v = -2^m` is
*accepted*, refuting the claim's `|v| ≥ 2^m` raise); unsigned:
`0 ≤ k ≤ (2^m - 1)·2^n` (so representable values in `(2^m - 1, 2^m)` are
rejected).  Unsigned construction from a negative float raises `ValueError`;
signed construction from `v > 2^m - 1` raises `ValueError` and from
`k < -2^(m+n)` raises `OverflowError` inside `to_bytes`. -/
theorem fp_roundtrip_amended (m n : Nat) (k : ℤ) (v : ℚ) :
    ((8 ∣ m + n + 1) → -(2 ^ (m + n)) ≤ k → k ≤ (2 ^ m - 1) * 2 ^ n →
      ∃ bs, FP.fromFloat true m n ((k : ℚ) / 2 ^ n) = .ok bs ∧
        FP.asFloat true n bs = (k : ℚ) / 2 ^ n) ∧
    ((8 ∣ m + n) → 0 ≤ k → k ≤ (2 ^ m - 1) * 2 ^ n →
      ∃ bs, FP.fromFloat false m n ((k : ℚ) / 2 ^ n) = .ok bs ∧
        FP.asFloat false n bs = (k : ℚ) / 2 ^ n) ∧
    (v < 0 → FP.fromFloat false m n v = .error .valueError) ∧
    (((2 ^ m - 1 : ℤ) : ℚ) < v → FP.fromFloat true m n v = .error .valueError) ∧
    ((8 ∣ m + n + 1) → k < -(2 ^ (m + n)) →
      FP.fromFloat true m n ((k : ℚ) / 2 ^ n) = .error .overflowError) := by
  have hq2n : (0 : ℚ) < 2 ^ n := by positivity
  have hprod : ((k : ℚ) / 2 ^ n) * (((2 : ℤ) ^ n : ℤ) : ℚ) = (k : ℚ) := by
    push_cast
    field_simp
  have h2nZ : (0 : ℤ) < 2 ^ n := by positivity
  have h2mZ : (0 : ℤ) < 2 ^ m := by positivity
  have hmnZ : (0 : ℤ) < 2 ^ (m + n) := by positivity
  have hsplit : ((2 : ℤ) ^ m - 1) * 2 ^ n = 2 ^ (m + n) - 2 ^ n := by
    rw [pow_add]; ring
  have hle : ∀ _ : k ≤ (2 ^ m - 1) * 2 ^ n,
      ¬ (((2 ^ m - 1 : ℤ) : ℚ) < (k : ℚ) / 2 ^ n) := by
    intro hk
    rw [not_lt, div_le_iff₀ hq2n]
    calc (k : ℚ) ≤ (((2 ^ m - 1) * 2 ^ n : ℤ) : ℚ) := by exact_mod_cast hk
    _ = ((2 ^ m - 1 : ℤ) : ℚ) * 2 ^ n := by push_cast; ring
  refine ⟨?_, ?_, ?_, ?_, ?_⟩
  · -- signed round-trip
    intro hdvd hlow hhigh
    have hLpos : 1 ≤ (m + n + 1) / 8 := by omega
    have h8L : 8 * ((m + n + 1) / 8) = m + n + 1 := Nat.mul_div_cancel' hdvd
    have hexp1 : 8 * ((m + n + 1) / 8) - 1 = m + n := by omega
    obtain ⟨bs, hsome, hlen, hval⟩ :=
      intToBytesLE_signed_roundtrip ((m + n + 1) / 8) k hLpos
        (by rw [hexp1]; exact hlow) (by rw [hexp1]; omega)
    refine ⟨bs, ?_, ?_⟩
    · rw [fromFloat_signed_def, if_neg (by omega), if_neg (hle hhigh), hprod,
        pyRound_intCast, hsome]
    · simp only [FP.asFloat, hval]
      push_cast
      ring
  · -- unsigned round-trip
    intro hdvd hlow hhigh
    have h8L : 8 * ((m + n) / 8) = m + n := Nat.mul_div_cancel' hdvd
    obtain ⟨bs, hsome, hlen, hval⟩ :=
      intToBytesLE_unsigned_roundtrip ((m + n) / 8) k hlow (by rw [h8L]; omega)
    refine ⟨bs, ?_, ?_⟩
    · have hvpos : ¬ ((k : ℚ) / 2 ^ n < 0) := by
        rw [not_lt]
        exact div_nonneg (by exact_mod_cast hlow) (le_of_lt hq2n)
      rw [fromFloat_unsigned_def, if_neg (by omega), if_neg hvpos,
        if_neg (hle hhigh), hprod, pyRound_intCast, hsome]
    · simp only [FP.asFloat, hval]
      push_cast
      ring
  · -- unsigned, negative input
    intro hv
    rw [fromFloat_unsigned_def]
    by_cases hd : (m + n) % 8 = 0
    · rw [if_neg (by omega), if_pos hv]
    · rw [if_pos hd]
  · -- signed, above the overflow bound
    intro hv
    rw [fromFloat_signed_def]
    by_cases hd : (m + n + 1) % 8 = 0
    · rw [if_neg (by omega), if_pos hv]
    · rw [if_pos hd]
  · -- signed, below -2^(m+n): OverflowError from to_bytes
    intro hdvd hlow
    have hLpos : 1 ≤ (m + n + 1) / 8 := by omega
    have h8L : 8 * ((m + n + 1) / 8) = m + n + 1 := Nat.mul_div_cancel' hdvd
    have hexp1 : 8 * ((m + n + 1) / 8) - 1 = m + n := by omega
    have hvneg : ¬ (((2 ^ m - 1 : ℤ) : ℚ) < (k : ℚ) / 2 ^ n) := by
      apply hle
      nlinarith
    rw [fromFloat_signed_def, if_neg (by omega), if_neg hvneg, hprod,
      pyRound_intCast]
    have hnone : intToBytesLE ((m + n + 1) / 8) true k = none := by
      rw [intToBytesLE_true, if_neg]
      rw [hexp1]
      rintro ⟨hc, -⟩
      omega
    rw [hnone]


/-- Counterexample to claim C5: the signed `Q4.11` fixed point accepts the
float `-16.0` even though `|-16| ≥ 2^4` (the constructor only checks the
upper bound), stores `0x8000` and reads it back exactly; and the unsigned
`Q4.4` value `15.5 = 248/2^4`, representable at that precision, is rejected
with `ValueError` by the `value > (1 << n_int) - 1` check, so the round-trip
claim fails for it. -/
theorem fp_overflow_check_counterexample :
    FP.fromFloat true 4 11 (-16 : ℚ) = .ok [0x00, 0x80] ∧
    FP.asFloat true 11 [0x00, 0x80] = (-16 : ℚ) ∧
    FP.fromFloat false 4 4 (31 / 2 : ℚ) = .error .valueError := by
  refine ⟨?_, ?_, ?_⟩
  · have harg : (-16 : ℚ) * (((2 : ℤ) ^ 11 : ℤ) : ℚ) = ((-32768 : ℤ) : ℚ) := by
      push_cast; norm_num
    rw [fromFloat_signed_def, if_neg (by norm_num), if_neg (by push_cast; norm_num),
      harg, pyRound_intCast,
      show intToBytesLE ((4 + 11 + 1) / 8) true (-32768) = some [0x00, 0x80] from by decide]
  · rw [show FP.asFloat true 11 [0x00, 0x80] =
        ((bytesToIntLE true [0x00, 0x80] : ℤ) : ℚ) / (((2 : ℤ) ^ 11 : ℤ) : ℚ) from rfl,
      show bytesToIntLE true [0x00, 0x80] = (-32768 : ℤ) from by decide]
    push_cast
    norm_num
  · rw [fromFloat_unsigned_def, if_neg (by norm_num), if_neg (by norm_num),
      if_pos (by push_cast; norm_num)]


/-- Witness for the amended C5 at concrete fixed-point formats. -/
theorem fp_roundtrip_amended_witness :
    (∃ bs, FP.fromFloat true 4 11 (((-32768 : ℤ) : ℚ) / 2 ^ 11) = .ok bs ∧
      FP.asFloat true 11 bs = ((-32768 : ℤ) : ℚ) / 2 ^ 11) ∧
    (∃ bs, FP.fromFloat false 8 8 (((516 : ℤ) : ℚ) / 2 ^ 8) = .ok bs ∧
      FP.asFloat false 8 bs = ((516 : ℤ) : ℚ) / 2 ^ 8) ∧
    FP.fromFloat false 4 4 (-3 : ℚ) = .error .valueError ∧
    FP.fromFloat true 4 11 (100 : ℚ) = .error .valueError ∧
    FP.fromFloat true 4 11 (((-40000 : ℤ) : ℚ) / 2 ^ 11) = .error .overflowError :=
  ⟨(fp_roundtrip_amended 4 11 (-32768) 0).1 (by norm_num) (by norm_num) (by norm_num),
    (fp_roundtrip_amended 8 8 516 0).2.1 (by norm_num) (by norm_num) (by norm_num),
    (fp_roundtrip_amended 4 4 0 (-3)).2.2.1 (by norm_num),
    (fp_roundtrip_amended 4 11 0 100).2.2.2.1 (by push_cast; norm_num),
    (fp_roundtrip_amended 4 11 (-40000) 0).2.2.2.2 (by norm_num) (by norm_num)⟩


end Uci
